import Mathlib

/-!
# Verification of the kilroy-face-reddit runtime core

A shallow embedding, in Lean 4, of the parts of
`src/kilroy_face_reddit/face.py` that the specification's testable
properties talk about:

* the native-id / 128-bit identifier conversion
  (`UUID(int=int(n, 36))` and `base_repr(id.int, 36).lower()`);
* the scrap pipeline `RedditFace._fetch` / `RedditFace.scrap`
  (per-item skip on translation failure, abort on scoring failure,
  `limit` handling via `stream.take`);
* the lock-event trace of the `_fetch` async generator;
* the manifest save/load resolution
  (`_create_state_dict`, `_load_*`, `_build_default_state`);
* the `post` facade (restriction check, poster delegation);
* `cleanup`.

Python machine integers do not overflow, so numbers are modelled as `Nat`;
Python exceptions are modelled with `Except`; Python dictionaries with
possibly-missing keys are modelled with `Option`-valued fields or
association lists.
-/

/-! ## Identifier conversion (face.py lines 493-495 and 516)

`int(s, 36)` parses a base-36 string (digits `0-9a-zA-Z`, case-insensitive)
left to right; `UUID(int=v)` additionally requires `0 ≤ v < 2^128`;
`numpy.base_repr(v, 36)` prints most-significant digit first using
uppercase letters, and `.lower()` lowercases them.  Characters are handled
through their code points: 48-57 = `'0'`-`'9'`, 65-90 = `'A'`-`'Z'`,
97-122 = `'a'`-`'z'`. -/

/-- The numeric value of one base-36 digit character, as accepted by
Python's `int(_, 36)`: `none` on a character that is not a base-36 digit. -/
def digitVal (c : Char) : Option Nat :=
  if 48 ≤ c.toNat && c.toNat ≤ 57 then some (c.toNat - 48)
  else if 97 ≤ c.toNat && c.toNat ≤ 122 then some (c.toNat - 87)
  else if 65 ≤ c.toNat && c.toNat ≤ 90 then some (c.toNat - 55)
  else none

/-- `int(s, 36)`: left-to-right fold over the digits; fails (`none`) on an
empty string or any non-digit character.  (Sign characters, underscores and
surrounding whitespace, which Python also tolerates, never occur in a
native id and are modelled as absent.) -/
def int36 (s : List Char) : Option Nat :=
  if s.isEmpty then none
  else s.foldl (fun acc c => acc.bind fun a => (digitVal c).map fun d => a * 36 + d) (some 0)

/-- `UUID(int=int(s, 36))`, as the underlying 128-bit integer:
`int(s, 36)` followed by the `UUID` range check `v < 2^128`. -/
def identifierOf (s : List Char) : Option Nat :=
  (int36 s).bind fun v => if v < 2 ^ 128 then some v else none

/-- The lowercase character of one base-36 digit value
(`base_repr` produces uppercase digits; the source immediately applies
`.lower()`, so the composition maps 10-35 to `'a'`-`'z'`). -/
def digitCharLower (d : Nat) : Char :=
  if d < 10 then Char.ofNat (48 + d) else Char.ofNat (87 + d)

/-- Little-endian base-36 digit list of `n`, with explicit fuel so that the
definition is structurally recursive (fuel `n` is always sufficient since
the argument shrinks by a factor of 36 each step). -/
def toB36Aux : Nat → Nat → List Nat
  | 0, _ => []
  | fuel + 1, n => if n = 0 then [] else n % 36 :: toB36Aux fuel (n / 36)

/-- Little-endian base-36 digit list of `n` (empty for `n = 0`). -/
def toB36 (n : Nat) : List Nat :=
  toB36Aux n n

/-- `base_repr(v, 36).lower()`: `"0"` for zero, otherwise the base-36
digits most-significant first, lowercased. -/
def nativeIdOf (v : Nat) : List Char :=
  if v = 0 then ['0'] else (toB36 v).reverse.map digitCharLower

/-- A character that can appear in a canonical native Reddit id:
a lowercase base-36 digit (`'0'`-`'9'` or `'a'`-`'z'`). -/
def isLowerDigit (c : Char) : Bool :=
  (48 ≤ c.toNat && c.toNat ≤ 57) || (97 ≤ c.toNat && c.toNat ≤ 122)

/-- A valid native base-36 item id: non-empty, made of lowercase base-36
digits, canonical (no leading zero except for `"0"` itself), and whose
value fits the 128-bit range that `UUID(int=...)` requires. -/
def validNativeId (s : List Char) : Bool :=
  !s.isEmpty && s.all isLowerDigit &&
    (s == ['0'] || s.head? != some '0') &&
    (match int36 s with
     | some v => decide (v < 2 ^ 128)
     | none => false)

/-- The digit value of a character known to be a base-36 digit. -/
def charDigit (c : Char) : Nat :=
  if c.toNat ≤ 57 then c.toNat - 48 else c.toNat - 87

theorem digitVal_of_lower (c : Char) (h : isLowerDigit c = true) :
    digitVal c = some (charDigit c) := by
  unfold isLowerDigit at h
  simp only [Bool.or_eq_true, Bool.and_eq_true, decide_eq_true_eq] at h
  unfold digitVal charDigit
  rcases h with ⟨h1, h2⟩ | ⟨h1, h2⟩
  · rw [if_pos, if_pos] <;> simp [h1, h2]
  · rw [if_neg, if_pos, if_neg] <;> simp <;> omega

theorem charDigit_lt (c : Char) (h : isLowerDigit c = true) :
    charDigit c < 36 := by
  unfold isLowerDigit at h
  simp only [Bool.or_eq_true, Bool.and_eq_true, decide_eq_true_eq] at h
  unfold charDigit
  rcases h with ⟨h1, h2⟩ | ⟨h1, h2⟩ <;> split <;> omega

theorem char_toNat_injective (c d : Char) (h : c.toNat = d.toNat) : c = d := by
  have := Char.ofNat_toNat c
  rw [h, Char.ofNat_toNat] at this
  exact this.symm

theorem digitCharLower_charDigit (c : Char) (h : isLowerDigit c = true) :
    digitCharLower (charDigit c) = c := by
  unfold isLowerDigit at h
  simp only [Bool.or_eq_true, Bool.and_eq_true, decide_eq_true_eq] at h
  rcases h with ⟨h1, h2⟩ | ⟨h1, h2⟩
  · have hd : charDigit c = c.toNat - 48 := by unfold charDigit; rw [if_pos h2]
    rw [hd]
    unfold digitCharLower
    rw [if_pos (by omega)]
    rw [show 48 + (c.toNat - 48) = c.toNat by omega, Char.ofNat_toNat]
  · have hd : charDigit c = c.toNat - 87 := by
      unfold charDigit; rw [if_neg (by omega)]
    rw [hd]
    unfold digitCharLower
    rw [if_neg (by omega)]
    rw [show 87 + (c.toNat - 87) = c.toNat by omega, Char.ofNat_toNat]

theorem charDigit_ne_zero (c : Char) (hl : isLowerDigit c = true)
    (hc : c ≠ '0') : charDigit c ≠ 0 := by
  unfold isLowerDigit at hl
  simp only [Bool.or_eq_true, Bool.and_eq_true, decide_eq_true_eq] at hl
  unfold charDigit
  rcases hl with ⟨h1, h2⟩ | ⟨h1, h2⟩
  · intro h0
    rw [if_pos h2] at h0
    exact hc (char_toNat_injective c '0' (by change c.toNat = 48; omega))
  · rw [if_neg (by omega)]
    omega

theorem toB36Aux_digits : ∀ fuel n, n ≤ fuel → toB36Aux fuel n = Nat.digits 36 n := by
  intro fuel
  induction fuel with
  | zero =>
    intro n hn
    have : n = 0 := Nat.le_zero.mp hn
    subst this
    simp [toB36Aux]
  | succ f ih =>
    intro n hn
    by_cases h0 : n = 0
    · subst h0; simp [toB36Aux]
    · have hdiv : n / 36 ≤ f := by
        have : n / 36 < n := Nat.div_lt_self (Nat.pos_of_ne_zero h0) (by norm_num)
        omega
      unfold toB36Aux
      rw [if_neg h0, ih (n / 36) hdiv,
        Nat.digits_def' (by norm_num : (1 : ℕ) < 36) (Nat.pos_of_ne_zero h0)]

theorem toB36_digits (n : Nat) : toB36 n = Nat.digits 36 n :=
  toB36Aux_digits n n le_rfl

theorem foldl_base36_eq_ofDigits (l : List Nat) (a : Nat) :
    l.foldl (fun x d => x * 36 + d) a
      = a * 36 ^ l.length + Nat.ofDigits 36 l.reverse := by
  induction l generalizing a with
  | nil => simp [Nat.ofDigits_nil]
  | cons d t ih =>
    rw [List.foldl_cons, ih (a * 36 + d), List.reverse_cons, Nat.ofDigits_append]
    simp only [List.length_cons, Nat.ofDigits_cons, Nat.ofDigits_nil,
      List.length_reverse]
    push_cast
    ring

theorem int36_fold (s : List Char) (a : Nat)
    (h : ∀ c ∈ s, isLowerDigit c = true) :
    s.foldl (fun acc c => acc.bind fun x => (digitVal c).map fun d => x * 36 + d) (some a)
      = some ((s.map charDigit).foldl (fun x d => x * 36 + d) a) := by
  induction s generalizing a with
  | nil => simp
  | cons c t ih =>
    have hc : digitVal c = some (charDigit c) :=
      digitVal_of_lower c (h c (List.mem_cons_self c t))
    rw [List.foldl_cons, List.map_cons, List.foldl_cons]
    simp only [Option.bind_some, hc, Option.map_some]
    exact ih (a * 36 + charDigit c) fun x hx => h x (List.mem_cons_of_mem c hx)

theorem int36_of_valid (s : List Char) (hne : s ≠ [])
    (h : ∀ c ∈ s, isLowerDigit c = true) :
    int36 s = some (Nat.ofDigits 36 ((s.map charDigit).reverse)) := by
  unfold int36
  rw [if_neg (by simpa using hne), int36_fold s 0 h,
    foldl_base36_eq_ofDigits]
  simp

/-- **C4.** For every valid native base-36 item id `n`, converting it to
the 128-bit identifier (`UUID(int=int(n, 36))`) and back to a native id
(`base_repr(id.int, 36).lower()`) yields `n` again:
`nativeIdOf (identifierOf n) = n`. -/
theorem c4_identifier_roundtrip (s : List Char) (h : validNativeId s = true) :
    ∃ v, identifierOf s = some v ∧ nativeIdOf v = s := by
  unfold validNativeId at h
  simp only [Bool.and_eq_true, Bool.not_eq_true', List.all_eq_true] at h
  obtain ⟨⟨⟨hne', hall⟩, hlead⟩, hrange⟩ := h
  have hne : s ≠ [] := by
    intro hcon; rw [hcon] at hne'; simp at hne'
  by_cases h0 : s = ['0']
  · subst h0
    exact ⟨0, by decide, rfl⟩
  · have hhead : s.head? ≠ some '0' := by
      rcases Bool.or_eq_true _ _ |>.mp hlead with hl | hl
      · exact absurd (by simpa using hl) h0
      · simpa using hl
    have hv : int36 s = some (Nat.ofDigits 36 ((s.map charDigit).reverse)) :=
      int36_of_valid s hne hall
    set ds : List Nat := (s.map charDigit).reverse with hds
    set v : Nat := Nat.ofDigits 36 ds with hvdef
    have hlt : v < 2 ^ 128 := by
      rw [hv] at hrange
      simpa using hrange
    refine ⟨v, ?_, ?_⟩
    · simp only [identifierOf, hv, Option.some_bind, if_pos hlt]
    · have hdsne : ds ≠ [] := by
        rw [hds]
        simp only [ne_eq, List.reverse_eq_nil_iff, List.map_eq_nil_iff]
        exact hne
      have hdigits : Nat.digits 36 v = ds := by
        refine Nat.digits_ofDigits 36 (by norm_num) ds ?_ ?_
        · intro l hl
          rw [hds] at hl
          rw [List.mem_reverse] at hl
          obtain ⟨c, hc, rfl⟩ := List.mem_map.mp hl
          exact charDigit_lt c (hall c hc)
        · intro hne''
          obtain ⟨c, t, rfl⟩ := List.exists_cons_of_ne_nil hne
          have hlast : ds.getLast? = some (charDigit c) := by
            rw [hds, List.getLast?_reverse, List.head?_map]
            simp
          rw [List.getLast?_eq_getLast ds hne''] at hlast
          have := Option.some.inj hlast
          rw [this]
          refine charDigit_ne_zero c (hall c (List.mem_cons_self c t)) ?_
          intro hcon
          exact hhead (by rw [hcon]; simp)
      have hv0 : v ≠ 0 := by
        intro hcon
        rw [hcon] at hdigits
        rw [Nat.digits_zero] at hdigits
        exact hdsne hdigits.symm
      unfold nativeIdOf
      rw [if_neg hv0, toB36_digits, hdigits, hds, List.reverse_reverse,
        List.map_map]
      have : digitCharLower ∘ charDigit = fun c => digitCharLower (charDigit c) := rfl
      rw [List.map_congr_left]
      · exact List.map_id s
      · intro c hc
        exact digitCharLower_charDigit c (hall c hc)

/-- Witness instantiating `c4_identifier_roundtrip` at the concrete native
id `"2gif"`. -/
theorem c4_identifier_roundtrip_witness :
    validNativeId ['2', 'g', 'i', 'f'] = true ∧
      ∃ v, identifierOf ['2', 'g', 'i', 'f'] = some v ∧
        nativeIdOf v = ['2', 'g', 'i', 'f'] :=
  ⟨by decide, c4_identifier_roundtrip ['2', 'g', 'i', 'f'] (by decide)⟩

/-! ## The scrap pipeline (`RedditFace._fetch`, face.py lines 503-529, and
`RedditFace.scrap`, lines 531-544)

`_fetch` iterates over the scraper-supplied submission sequence.  Per item,
under a freshly acquired read lock, it: computes
`post_id = UUID(int=int(submission.id, 36))`; scores the item
(`state.scorer.score`, then `state.score_modifier.modify` when a modifier
is active) — any failure there is uncaught and aborts the generator;
translates the item (`Post.from_submission` then
`state.processor.to_external`) inside a `try` whose `except Exception:
continue` skips the item; and yields the triple.  `scrap` wraps the
generator in `aiostream.stream.take` when `limit` is given.

A Python exception is a `PyErr`; an aborted stream is modelled by the pair
(emitted triples so far, optional propagated error). -/

/-- A Python exception value, as far as the facade distinguishes them. -/
inductive PyErr where
  | valueError (msg : String)
  | exc (tag : Nat)
deriving DecidableEq, Repr

/-- A scraped remote item: its native base-36 id string plus whatever
payload the strategies inspect. -/
structure Submission (σ : Type) where
  id : List Char
  payload : σ
deriving DecidableEq, Repr

/-- The strategy slots that `_fetch` reads from the locked state:
`state.scorer.score`, the optional `state.score_modifier.modify`,
`Post.from_submission` and `state.processor.to_external` (the latter two
live inside one `try` block; `π` is the intermediate `Post.data` form). -/
structure ScrapOps (σ π γ ρ : Type) where
  score : Submission σ → Except PyErr ρ
  modifier : Option (Submission σ → ρ → Except PyErr ρ)
  from_submission : Submission σ → Except PyErr π
  to_external : π → Except PyErr γ

variable {σ π γ ρ : Type}

/-- `post_id = UUID(int=int(submission.id, 36))`: raises (`ValueError`)
on a malformed id or a value outside the 128-bit range. -/
def idOf (s : List Char) : Except PyErr Nat :=
  match identifierOf s with
  | some v => .ok v
  | none => .error (.valueError "badly formed id")

/-- Lines 517-521: raw scorer, then the modifier when one is active. -/
def scoreFull (ops : ScrapOps σ π γ ρ) (s : Submission σ) : Except PyErr ρ := do
  let sc ← ops.score s
  match ops.modifier with
  | some m => m s sc
  | none => pure sc

/-- Lines 524-525: `Post.from_submission` then `processor.to_external`,
the two statements covered by the `try`/`except Exception` block. -/
def translateItem (ops : ScrapOps σ π γ ρ) (s : Submission σ) :
    Except PyErr γ := do
  let p ← ops.from_submission s
  ops.to_external p

/-- `_fetch`: the triples emitted before the generator finishes or dies,
together with the uncaught exception when it dies.  Translation failure
hits `continue`; id-computation or scoring failure propagates. -/
def fetch (ops : ScrapOps σ π γ ρ) :
    List (Submission σ) → List (Nat × γ × ρ) × Option PyErr
  | [] => ([], none)
  | s :: rest =>
    match idOf s.id with
    | .error e => ([], some e)
    | .ok pid =>
      match scoreFull ops s with
      | .error e => ([], some e)
      | .ok sc =>
        match translateItem ops s with
        | .error _ => fetch ops rest
        | .ok c =>
          let (ts, err) := fetch ops rest
          ((pid, c, sc) :: ts, err)

/-- `scrap`: `_fetch` wrapped in `stream.take(_, limit)` when a limit is
given.  `take n` closes the source once `n` items have been emitted, so an
error the generator would have raised later never surfaces; with fewer
than `n` items the generator runs to its own end (or error). -/
def scrap (ops : ScrapOps σ π γ ρ) (limit : Option Nat)
    (subs : List (Submission σ)) : List (Nat × γ × ρ) × Option PyErr :=
  let (ts, err) := fetch ops subs
  match limit with
  | none => (ts, err)
  | some n => if n ≤ ts.length then (ts.take n, none) else (ts, err)

/-- The triple that `_fetch` emits for one submission when nothing fails
on it (`none` when its translation step fails, which is the skip case). -/
def emitOf (ops : ScrapOps σ π γ ρ) (s : Submission σ) :
    Option (Nat × γ × ρ) :=
  match idOf s.id, scoreFull ops s, translateItem ops s with
  | .ok pid, .ok sc, .ok c => some (pid, c, sc)
  | _, _, _ => none

theorem emitOf_eq_some (ops : ScrapOps σ π γ ρ) (s : Submission σ)
    (pid : Nat) (sc : ρ) (c : γ) (h1 : idOf s.id = .ok pid)
    (h2 : scoreFull ops s = .ok sc) (h3 : translateItem ops s = .ok c) :
    emitOf ops s = some (pid, c, sc) := by
  unfold emitOf
  rw [h1, h2, h3]

theorem emitOf_eq_none_of_translate (ops : ScrapOps σ π γ ρ)
    (s : Submission σ) (e : PyErr) (h : translateItem ops s = .error e) :
    emitOf ops s = none := by
  unfold emitOf
  rw [h]
  rcases idOf s.id with _ | _ <;> rcases scoreFull ops s with _ | _ <;> rfl

/-- When the id conversion and the scoring succeed on every item, `_fetch`
runs the whole sequence, emits exactly the translatable items, and raises
nothing. -/
theorem fetch_all_scored (ops : ScrapOps σ π γ ρ)
    (subs : List (Submission σ))
    (hid : ∀ s ∈ subs, (idOf s.id).isOk = true)
    (hscore : ∀ s ∈ subs, (scoreFull ops s).isOk = true) :
    fetch ops subs = (subs.filterMap (emitOf ops), none) := by
  induction subs with
  | nil => rfl
  | cons s rest ih =>
    have hids : (idOf s.id).isOk = true := hid s (List.mem_cons_self s rest)
    have hscs : (scoreFull ops s).isOk = true :=
      hscore s (List.mem_cons_self s rest)
    obtain ⟨pid, hpid⟩ : ∃ pid, idOf s.id = .ok pid := by
      rcases h : idOf s.id with e | pid
      · rw [h] at hids; simp [Except.isOk, Except.toBool] at hids
      · exact ⟨pid, rfl⟩
    obtain ⟨sc, hsc⟩ : ∃ sc, scoreFull ops s = .ok sc := by
      rcases h : scoreFull ops s with e | sc
      · rw [h] at hscs; simp [Except.isOk, Except.toBool] at hscs
      · exact ⟨sc, rfl⟩
    have ihr := ih (fun x hx => hid x (List.mem_cons_of_mem s hx))
      (fun x hx => hscore x (List.mem_cons_of_mem s hx))
    rcases htr : translateItem ops s with e | c
    · rw [List.filterMap_cons]
      rw [emitOf_eq_none_of_translate ops s e htr]
      show fetch ops (s :: rest) = _
      unfold fetch
      rw [hpid, hsc, htr, ihr]
    · rw [List.filterMap_cons, emitOf_eq_some ops s pid sc c hpid hsc htr]
      show fetch ops (s :: rest) = _
      unfold fetch
      rw [hpid, hsc, htr, ihr]

theorem isOk_exists {ε α : Type} (x : Except ε α) (h : x.isOk = true) :
    ∃ a, x = .ok a := by
  rcases x with e | a
  · simp [Except.isOk, Except.toBool] at h
  · exact ⟨a, rfl⟩

theorem isOk_false_exists {ε α : Type} (x : Except ε α) (h : x.isOk = false) :
    ∃ e, x = .error e := by
  rcases x with e | a
  · exact ⟨e, rfl⟩
  · simp [Except.isOk, Except.toBool] at h

theorem emitOf_isSome (ops : ScrapOps σ π γ ρ) (s : Submission σ)
    (h1 : (idOf s.id).isOk = true) (h2 : (scoreFull ops s).isOk = true)
    (h3 : (translateItem ops s).isOk = true) :
    (emitOf ops s).isSome = true := by
  obtain ⟨pid, hpid⟩ := isOk_exists _ h1
  obtain ⟨sc, hsc⟩ := isOk_exists _ h2
  obtain ⟨c, hc⟩ := isOk_exists _ h3
  rw [emitOf_eq_some ops s pid sc c hpid hsc hc]
  rfl

theorem length_filterMap_of_all_isSome {α β : Type} (f : α → Option β)
    (l : List α) (h : ∀ x ∈ l, (f x).isSome = true) :
    (l.filterMap f).length = l.length := by
  induction l with
  | nil => rfl
  | cons a t ih =>
    obtain ⟨b, hb⟩ := Option.isSome_iff_exists.mp (h a (List.mem_cons_self a t))
    rw [List.filterMap_cons, hb, List.length_cons,
      ih fun x hx => h x (List.mem_cons_of_mem a hx)]
    rfl

theorem filterMap_eraseIdx_of_none {α β : Type} (f : α → Option β)
    (l : List α) (k : Nat) (hk : k < l.length) (h : f l[k] = none) :
    l.filterMap f = (l.eraseIdx k).filterMap f := by
  induction l generalizing k with
  | nil => simp at hk
  | cons a t ih =>
    cases k with
    | zero =>
      simp only [List.getElem_cons_zero] at h
      rw [List.eraseIdx_cons_zero, List.filterMap_cons, h]
    | succ k =>
      simp only [List.getElem_cons_succ] at h
      have hk' : k < t.length := by simpa using hk
      rw [List.eraseIdx_cons_succ, List.filterMap_cons, List.filterMap_cons,
        ih k hk' h]

theorem scrap_none (ops : ScrapOps σ π γ ρ) (subs : List (Submission σ)) :
    scrap ops none subs = fetch ops subs := by
  unfold scrap
  rcases h : fetch ops subs with ⟨ts, err⟩
  simp

/-- **C1.** On a scrap sequence of length `L` where translation fails on
exactly one item `k` while the id conversion and scoring succeed on every
item, `streamExport` (i.e. `scrap` with no limit) emits exactly `L - 1`
triples — the emitted list is precisely the per-item results of the
sequence with item `k` removed, so item `k` is absent and every item after
`k` is still processed — and raises no error to the caller. -/
theorem c1_translation_failure_skips (ops : ScrapOps σ π γ ρ)
    (subs : List (Submission σ)) (k : Nat) (hk : k < subs.length)
    (hid : ∀ s ∈ subs, (idOf s.id).isOk = true)
    (hscore : ∀ s ∈ subs, (scoreFull ops s).isOk = true)
    (hfail : (translateItem ops subs[k]).isOk = false)
    (hothers : ∀ i : Fin subs.length, i.1 ≠ k →
      (translateItem ops (subs.get i)).isOk = true) :
    scrap ops none subs = ((subs.eraseIdx k).filterMap (emitOf ops), none) ∧
      (scrap ops none subs).1.length = subs.length - 1 := by
  have hfetch := fetch_all_scored ops subs hid hscore
  have hemit_none : emitOf ops subs[k] = none := by
    obtain ⟨e, he⟩ := isOk_false_exists _ hfail
    exact emitOf_eq_none_of_translate ops _ e he
  have hskip : subs.filterMap (emitOf ops)
      = (subs.eraseIdx k).filterMap (emitOf ops) :=
    filterMap_eraseIdx_of_none (emitOf ops) subs k hk hemit_none
  have hsome : ∀ x ∈ subs.eraseIdx k, (emitOf ops x).isSome = true := by
    intro x hx
    obtain ⟨⟨j, hj⟩, hxe⟩ := List.mem_iff_get.mp hx
    have hjlen : (subs.eraseIdx k).length = subs.length - 1 := by
      rw [List.length_eraseIdx, if_pos hk]
    have hgj := List.getElem_eraseIdx subs k j (by omega)
    by_cases hjk : j < k
    · rw [dif_pos hjk] at hgj
      have hjs : j < subs.length := by omega
      have hix : subs[j] = x := by
        rw [← hgj]
        simpa using hxe
      have hmem : x ∈ subs := hix ▸ List.getElem_mem _
      refine emitOf_isSome ops x (hid x hmem) (hscore x hmem) ?_
      have hne1 : j ≠ k := by omega
      have := hothers ⟨j, hjs⟩ hne1
      simpa [hix] using this
    · rw [dif_neg hjk] at hgj
      have hjs : j + 1 < subs.length := by omega
      have hix : subs[j + 1] = x := by
        rw [← hgj]
        simpa using hxe
      have hmem : x ∈ subs := hix ▸ List.getElem_mem _
      refine emitOf_isSome ops x (hid x hmem) (hscore x hmem) ?_
      have hne2 : j + 1 ≠ k := by omega
      have := hothers ⟨j + 1, hjs⟩ hne2
      simpa [hix] using this
  constructor
  · rw [scrap_none, hfetch, hskip]
  · rw [scrap_none, hfetch]
    show (subs.filterMap (emitOf ops)).length = subs.length - 1
    rw [hskip, length_filterMap_of_all_isSome (emitOf ops) _ hsome,
      List.length_eraseIdx, if_pos hk]

/-- Witness for `c1_translation_failure_skips`: three items, translation
fails on the middle one, two triples come out and no error. -/
theorem c1_translation_failure_skips_witness :
    scrap
        { score := fun _ => .ok 5, modifier := none,
          from_submission := fun s => .ok s.payload,
          to_external := fun p : Nat =>
            if p = 99 then .error (.exc 0) else .ok p }
        none
        [⟨['1'], 1⟩, ⟨['2'], 99⟩, ⟨['3'], 3⟩]
      = (([⟨['1'], (1 : Nat)⟩, ⟨['2'], 99⟩, ⟨['3'], 3⟩].eraseIdx
            1).filterMap
          (emitOf
            { score := fun _ => .ok (5 : Nat), modifier := none,
              from_submission := fun s => .ok s.payload,
              to_external := fun p : Nat =>
                if p = 99 then .error (.exc 0) else .ok p }), none) := by
  exact (c1_translation_failure_skips _ _ 1 (by decide) (by decide)
    (by decide) (by decide) (by decide)).1

/-- **C2.** If scoring (raw scorer or active modifier) fails on item `k`
— and succeeded on every earlier item, so `k` is where the generator dies —
then `streamExport` aborts there: the scoring error propagates to the
caller, and the emitted triples are exactly those of the items strictly
before `k`; no triple for item `k` or for any later item is emitted. -/
theorem c2_scoring_failure_aborts (ops : ScrapOps σ π γ ρ)
    (subs : List (Submission σ)) (k : Nat) (e : PyErr)
    (hk : k < subs.length)
    (hid : ∀ s ∈ subs, (idOf s.id).isOk = true)
    (hbefore : ∀ i : Fin subs.length, i.1 < k →
      (scoreFull ops (subs.get i)).isOk = true)
    (hfail : scoreFull ops subs[k] = .error e) :
    scrap ops none subs = ((subs.take k).filterMap (emitOf ops), some e) := by
  rw [scrap_none]
  induction subs generalizing k with
  | nil => simp at hk
  | cons s rest ih =>
    obtain ⟨pid, hpid⟩ :=
      isOk_exists _ (hid s (List.mem_cons_self s rest))
    cases k with
    | zero =>
      simp only [List.getElem_cons_zero] at hfail
      show fetch ops (s :: rest) = _
      unfold fetch
      rw [hpid, hfail, List.take_zero, List.filterMap_nil]
    | succ k =>
      have hsc0 : (scoreFull ops s).isOk = true := by
        have := hbefore ⟨0, Nat.succ_pos _⟩ (Nat.succ_pos k)
        simpa using this
      obtain ⟨sc, hsc⟩ := isOk_exists _ hsc0
      have hk' : k < rest.length := by simpa using hk
      simp only [List.getElem_cons_succ] at hfail
      have ihr := ih k hk'
        (fun x hx => hid x (List.mem_cons_of_mem s hx))
        (fun (i : Fin rest.length) (hi : i.1 < k) => by
          have := hbefore ⟨i.1 + 1, Nat.succ_lt_succ i.isLt⟩
            (Nat.succ_lt_succ hi)
          simpa using this)
        hfail
      rcases htr : translateItem ops s with e' | c
      · show fetch ops (s :: rest) = _
        unfold fetch
        rw [hpid, hsc, htr, ihr, List.take_succ_cons, List.filterMap_cons,
          emitOf_eq_none_of_translate ops s e' htr]
      · show fetch ops (s :: rest) = _
        unfold fetch
        rw [hpid, hsc, htr, ihr, List.take_succ_cons, List.filterMap_cons,
          emitOf_eq_some ops s pid sc c hpid hsc htr]

/-- Witness for `c2_scoring_failure_aborts`: three items, the scorer dies
on the middle one; only the first item's triple is emitted and the error
surfaces. -/
theorem c2_scoring_failure_aborts_witness :
    scrap
        { score := fun s : Submission Nat =>
            if s.payload = 99 then .error (.exc 7) else .ok s.payload,
          modifier := none,
          from_submission := fun s => .ok s.payload,
          to_external := fun p : Nat => .ok p }
        none
        [⟨['1'], 1⟩, ⟨['2'], 99⟩, ⟨['3'], 3⟩]
      = (([⟨['1'], (1 : Nat)⟩, ⟨['2'], 99⟩, ⟨['3'], 3⟩].take 1).filterMap
          (emitOf
            { score := fun s : Submission Nat =>
                if s.payload = 99 then .error (.exc 7) else .ok s.payload,
              modifier := none,
              from_submission := fun s => .ok s.payload,
              to_external := fun p : Nat => .ok p }), some (.exc 7)) := by
  exact c2_scoring_failure_aborts _ _ 1 (.exc 7) (by decide) (by decide)
    (by decide) (by rfl)

theorem emitOf_translate_ok (ops : ScrapOps σ π γ ρ) (s : Submission σ)
    (t : Nat × γ × ρ) (h : emitOf ops s = some t) :
    (translateItem ops s).isOk = true := by
  by_cases hok : (translateItem ops s).isOk = true
  · exact hok
  · exfalso
    obtain ⟨e, he⟩ := isOk_false_exists _ (by simpa using hok)
    rw [emitOf_eq_none_of_translate ops s e he] at h
    exact Option.noConfusion h

theorem length_filterMap_emitOf_le_filter (ops : ScrapOps σ π γ ρ)
    (l : List (Submission σ)) :
    (l.filterMap (emitOf ops)).length
      ≤ (l.filter fun s => (translateItem ops s).isOk).length := by
  induction l with
  | nil => simp
  | cons s t ih =>
    rcases h : emitOf ops s with _ | tr
    · by_cases hca : (translateItem ops s).isOk = true
      · simp only [List.filterMap_cons, List.filter_cons, h, if_pos hca]
        exact le_trans ih (by simp)
      · simp only [List.filterMap_cons, List.filter_cons, h, if_neg hca]
        exact ih
    · have hca := emitOf_translate_ok ops s tr h
      simp only [List.filterMap_cons, List.filter_cons, h, if_pos hca,
        List.length_cons]
      exact Nat.succ_le_succ ih

/-- Whatever fails where, the triples `_fetch` emits are exactly the
per-item results of some prefix of the input (the part walked before the
generator finished or died), in source order. -/
theorem fetch_emits_take (ops : ScrapOps σ π γ ρ) (subs : List (Submission σ)) :
    ∃ j, j ≤ subs.length ∧
      (fetch ops subs).1 = (subs.take j).filterMap (emitOf ops) := by
  induction subs with
  | nil => exact ⟨0, le_rfl, rfl⟩
  | cons s rest ih =>
    rcases hidc : idOf s.id with e | pid
    · refine ⟨0, Nat.zero_le _, ?_⟩
      show (fetch ops (s :: rest)).1 = _
      unfold fetch
      rw [hidc]
      rfl
    · rcases hscc : scoreFull ops s with e | sc
      · refine ⟨0, Nat.zero_le _, ?_⟩
        show (fetch ops (s :: rest)).1 = _
        unfold fetch
        rw [hidc, hscc]
        rfl
      · obtain ⟨j, hj, hfr⟩ := ih
        refine ⟨j + 1, by simpa using hj, ?_⟩
        rcases htr : translateItem ops s with e | c
        · show (fetch ops (s :: rest)).1 = _
          unfold fetch
          rw [hidc, hscc, htr, List.take_succ_cons, List.filterMap_cons,
            emitOf_eq_none_of_translate ops s e htr]
          exact hfr
        · show (fetch ops (s :: rest)).1 = _
          unfold fetch
          rw [hidc, hscc, htr, List.take_succ_cons, List.filterMap_cons,
            emitOf_eq_some ops s pid sc c hidc hscc htr]
          rcases hf : fetch ops rest with ⟨ts, err⟩
          rw [hf] at hfr
          simpa using hfr

theorem scrap_some_def (ops : ScrapOps σ π γ ρ) (n : Nat)
    (subs : List (Submission σ)) :
    scrap ops (some n) subs =
      if n ≤ (fetch ops subs).1.length
      then ((fetch ops subs).1.take n, none)
      else fetch ops subs := by
  unfold scrap
  rcases h : fetch ops subs with ⟨ts, err⟩
  simp

/-- **C3.** For every scrap sequence and every limit `N`,
`streamExport(limit=N)` emits exactly the first `N` triples of the
unlimited stream's emissions — so its length is exactly
`min N (number of triples the unlimited run emits)`, and items skipped for
translation failure do not count toward the limit: only emitted triples
do, and as long as the unlimited run emits at least `N` triples the
limited run emits exactly `N`, however many items were skipped.
Consequently it emits at most `N` triples, never more than the number of
successfully-translated items of the underlying sequence, and in source
order (the emitted list is a prefix of the sequence's per-item
results). -/
theorem c3_limit_bounds (ops : ScrapOps σ π γ ρ)
    (subs : List (Submission σ)) (n : Nat) :
    (scrap ops (some n) subs).1 = (scrap ops none subs).1.take n ∧
      (scrap ops (some n) subs).1.length
        = min n (scrap ops none subs).1.length ∧
      (scrap ops (some n) subs).1.length ≤ n ∧
      (scrap ops (some n) subs).1.length
        ≤ (subs.filter fun s => (translateItem ops s).isOk).length ∧
      (scrap ops (some n) subs).1 <+: subs.filterMap (emitOf ops) := by
  obtain ⟨j, hj, hfr⟩ := fetch_emits_take ops subs
  have htp : subs.take j <+: subs := List.take_prefix j subs
  have hfil : (fetch ops subs).1.length
      ≤ (subs.filter fun s => (translateItem ops s).isOk).length := by
    rw [hfr]
    refine le_trans (length_filterMap_emitOf_le_filter ops (subs.take j)) ?_
    exact (htp.filter _).length_le
  have hpre : (fetch ops subs).1 <+: subs.filterMap (emitOf ops) := by
    rw [hfr]
    exact List.IsPrefix.filterMap (emitOf ops) htp
  rw [scrap_some_def, scrap_none]
  split
  · refine ⟨rfl, List.length_take _ _, List.length_take_le n (fetch ops subs).1,
      ?_, ?_⟩
    · exact le_trans (List.length_take_le' _ _) hfil
    · have htp2 : (fetch ops subs).1.take n <+: (fetch ops subs).1 :=
        List.take_prefix n (fetch ops subs).1
      exact htp2.trans hpre
  · rename_i hlen
    have hle : (fetch ops subs).1.length ≤ n := by omega
    refine ⟨(List.take_of_length_le hle).symm, ?_, by omega, hfil, hpre⟩
    omega

/-! ## Lock events of the `_fetch` generator (face.py lines 509-529)

The body of `_fetch` is `while True: async with self.state.read_lock() as
state: ...` and the `yield` statement sits *inside* the `async with`
block.  The trace below records, in program order, each lock acquisition,
each lock release (normal block exit, `break`, `continue`, exception
unwind — the scoped `async with` releases on every exit path), each
`yield` suspension, each uncaught exception, and generator termination.
Because the `yield` is lexically inside the locked block, the release of
an item's lock happens only after the generator is resumed (or closed)
following the yield. -/

/-- One observable event of the `_fetch` generator. -/
inductive FetchEv (τ : Type) where
  | acquire
  | release
  | yielded (t : τ)
  | raised (e : PyErr)
  | finished
deriving DecidableEq, Repr

/-- The event trace of `_fetch` on a submission sequence. -/
def fetchTrace (ops : ScrapOps σ π γ ρ) :
    List (Submission σ) → List (FetchEv (Nat × γ × ρ))
  | [] => [.acquire, .release, .finished]
  | s :: rest =>
    .acquire ::
      (match idOf s.id with
       | .error e => [.release, .raised e]
       | .ok pid =>
         match scoreFull ops s with
         | .error e => [.release, .raised e]
         | .ok sc =>
           match translateItem ops s with
           | .error _ => .release :: fetchTrace ops rest
           | .ok c => .yielded (pid, c, sc) :: .release :: fetchTrace ops rest)

/-- Scans a trace keeping the current lock depth `d` (acquisitions minus
releases so far) and checks that every `yielded` event occurs at depth
exactly `want`. -/
def checkYieldDepth {τ : Type} (want : Int) : Int → List (FetchEv τ) → Bool
  | _, [] => true
  | d, .acquire :: r => checkYieldDepth want (d + 1) r
  | d, .release :: r => checkYieldDepth want (d - 1) r
  | d, .yielded _ :: r => d == want && checkYieldDepth want d r
  | d, .raised _ :: r => checkYieldDepth want d r
  | d, .finished :: r => checkYieldDepth want d r

/-- Scans a trace and checks that every `acquire` happens at depth
exactly `want` (i.e. with `want` locks already held). -/
def checkAcquireDepth {τ : Type} (want : Int) : Int → List (FetchEv τ) → Bool
  | _, [] => true
  | d, .acquire :: r => d == want && checkAcquireDepth want (d + 1) r
  | d, .release :: r => checkAcquireDepth want (d - 1) r
  | d, .yielded _ :: r => checkAcquireDepth want d r
  | d, .raised _ :: r => checkAcquireDepth want d r
  | d, .finished :: r => checkAcquireDepth want d r

/-- The lock depth left over at the end of a trace. -/
def finalDepth {τ : Type} : Int → List (FetchEv τ) → Int
  | d, [] => d
  | d, .acquire :: r => finalDepth (d + 1) r
  | d, .release :: r => finalDepth (d - 1) r
  | d, .yielded _ :: r => finalDepth d r
  | d, .raised _ :: r => finalDepth d r
  | d, .finished :: r => finalDepth d r

/-- The claim's property: while the caller consumes a yielded triple
(i.e. at every `yielded` suspension point) no lock is held. -/
def NoLockHeldAtYields {τ : Type} (tr : List (FetchEv τ)) : Prop :=
  checkYieldDepth 0 0 tr = true

/-- **C8, counterexample.**  On a one-item sequence where everything
succeeds, the triple is yielded with the per-item read lock still held
(depth 1, not 0): the `yield` is inside the `async with` block, so the
lock is *not* released while the caller consumes the triple. -/
theorem c8_lock_counterexample :
    ¬ NoLockHeldAtYields
        (fetchTrace
          { score := fun _ => .ok (5 : Nat), modifier := none,
            from_submission := fun s => .ok s.payload,
            to_external := fun p : Nat => .ok p }
          [⟨['1'], (1 : Nat)⟩]) := by
  unfold NoLockHeldAtYields
  decide

/-- **C8, amended.**  The read lock is re-acquired per item, each
acquisition happens with no lock already held, and every lock taken has
been released by the end of the trace (nothing leaks at termination,
normal or exceptional); but every triple is yielded from *inside* the
per-item locked section — lock depth is exactly 1 at every `yielded`
event — so the lock is held while the caller consumes a yielded triple
and is released only when the generator is resumed or closed afterwards. -/
theorem c8_amended_lock_discipline (ops : ScrapOps σ π γ ρ)
    (subs : List (Submission σ)) :
    checkYieldDepth 1 0 (fetchTrace ops subs) = true ∧
      checkAcquireDepth 0 0 (fetchTrace ops subs) = true ∧
      finalDepth 0 (fetchTrace ops subs) = 0 := by
  induction subs with
  | nil => exact ⟨rfl, rfl, rfl⟩
  | cons s rest ih =>
    obtain ⟨ih1, ih2, ih3⟩ := ih
    rcases hidc : idOf s.id with e | pid
    · refine ⟨?_, ?_, ?_⟩ <;>
        simp [fetchTrace, hidc, checkYieldDepth, checkAcquireDepth,
          finalDepth]
    · rcases hscc : scoreFull ops s with e | sc
      · refine ⟨?_, ?_, ?_⟩ <;>
          simp [fetchTrace, hidc, hscc, checkYieldDepth, checkAcquireDepth,
            finalDepth]
      · rcases htr : translateItem ops s with e | c
        · refine ⟨?_, ?_, ?_⟩ <;>
          · simp only [fetchTrace, hidc, hscc, htr, checkYieldDepth,
              checkAcquireDepth, finalDepth]
            norm_num [ih1, ih2, ih3, beq_iff_eq]
        · refine ⟨?_, ?_, ?_⟩ <;>
          · simp only [fetchTrace, hidc, hscc, htr, checkYieldDepth,
              checkAcquireDepth, finalDepth]
            norm_num [ih1, ih2, ih3, beq_iff_eq]

/-! ## Manifest save/load (face.py lines 43-59, 62-76, 201-219, 251-280,
282-415)

`Params` is the startup configuration; `State` holds one resolved strategy
instance per slot plus the per-slot parameter dictionaries.  A strategy
instance is identified, for resolution purposes, by its `category`
together with the keyword arguments it was built with, so the live state
is modelled by categories plus parameter dictionaries.

`_create_state_dict` writes a manifest containing *all* the keys; `_load_*`
read the manifest with `dict.get(key, configuration_fallback)` — modelled
as `Option`-valued fields, where for the two optional slots key presence
(`"score_modifier_type" in state_dict`) is distinguished from a present
key holding `None`, hence `Option (Option String)`.

Python dictionaries `Dict[str, Dict[str, Any]]` are modelled as
association lists; `V` is the (arbitrary) type of an inner per-category
parameter mapping's values. -/

variable {V : Type}

/-- One per-slot `*_params` dictionary: category name → parameter
mapping (the parameter mapping itself is an association list over `V`). -/
def PMap (V : Type) : Type := List (String × List (String × V))

/-- `d.get(category, {})` on a per-slot params dictionary. -/
def getParams (m : PMap V) (category : String) : List (String × V) :=
  (m.lookup category).getD []

/-- The startup configuration (`Params`, face.py lines 43-59). -/
structure FaceParams (V : Type) where
  client_id : String
  client_secret : String
  refresh_token : String
  user_agent : String
  subreddit : String
  ratelimit_seconds : Nat
  poster_type : String
  posters_params : PMap V
  scorer_type : String
  scorers_params : PMap V
  score_modifier_type : Option String
  score_modifiers_params : PMap V
  scraper_type : String
  scrapers_params : PMap V
  restriction_type : Option String
  restrictions_params : PMap V

/-- The category-and-parameters content of a live `State` (face.py lines
62-76): the active category per slot (`None` possible for the two
optional slots) and the per-slot parameter dictionaries. -/
structure FaceState (V : Type) where
  processor_cat : String
  poster_cat : String
  posters_params : PMap V
  scorer_cat : String
  scorers_params : PMap V
  score_modifier_cat : Option String
  score_modifiers_params : PMap V
  scraper_cat : String
  scrapers_params : PMap V
  restriction_cat : Option String
  restrictions_params : PMap V

/-- The persisted manifest as read back by `_load_saved_state`: each
field is `none` when the key is absent from the dictionary.  For the two
optional slots the stored value itself may be `None`, hence the nested
`Option`. -/
structure StateDict (V : Type) where
  processor_type : Option String
  poster_type : Option String
  scorer_type : Option String
  score_modifier_type : Option (Option String)
  scraper_type : Option String
  restriction_type : Option (Option String)
  posters_params : Option (PMap V)
  scorers_params : Option (PMap V)
  score_modifiers_params : Option (PMap V)
  scrapers_params : Option (PMap V)
  restrictions_params : Option (PMap V)

/-- `_create_state_dict` (lines 251-269): every key is written, including
an explicit `None` for an absent optional slot. -/
def create_state_dict (st : FaceState V) : StateDict V :=
  { processor_type := some st.processor_cat
    poster_type := some st.poster_cat
    scorer_type := some st.scorer_cat
    score_modifier_type := some st.score_modifier_cat
    scraper_type := some st.scraper_cat
    restriction_type := some st.restriction_cat
    posters_params := some st.posters_params
    scorers_params := some st.scorers_params
    score_modifiers_params := some st.score_modifiers_params
    scrapers_params := some st.scrapers_params
    restrictions_params := some st.restrictions_params }

/-- A manifest with no keys at all (missing or empty manifest file). -/
def emptyStateDict (V : Type) : StateDict V :=
  { processor_type := none, poster_type := none, scorer_type := none
    score_modifier_type := none, scraper_type := none
    restriction_type := none, posters_params := none
    scorers_params := none, score_modifiers_params := none
    scrapers_params := none, restrictions_params := none }

/-- `_load_processor` (lines 282-292): category resolution only — the
processor takes no parameters. -/
def load_processor_cat (sd : StateDict V) (postType : String) : String :=
  sd.processor_type.getD postType

/-- `_load_poster` (lines 294-307): category and keyword arguments. -/
def load_poster_resolved (sd : StateDict V) (p : FaceParams V) :
    String × List (String × V) :=
  let category := sd.poster_type.getD p.poster_type
  (category, getParams (sd.posters_params.getD p.posters_params) category)

/-- `_load_scorer` (lines 309-322). -/
def load_scorer_resolved (sd : StateDict V) (p : FaceParams V) :
    String × List (String × V) :=
  let category := sd.scorer_type.getD p.scorer_type
  (category, getParams (sd.scorers_params.getD p.scorers_params) category)

/-- `_load_score_modifier` (lines 324-343): key presence decides whether
the manifest's value (possibly `None`) or the configuration's is used;
`None` resolves to "no instance". -/
def load_score_modifier_resolved (sd : StateDict V) (p : FaceParams V) :
    Option (String × List (String × V)) :=
  let category : Option String :=
    match sd.score_modifier_type with
    | some v => v
    | none => p.score_modifier_type
  match category with
  | none => none
  | some c =>
    some (c,
      getParams (sd.score_modifiers_params.getD p.score_modifiers_params) c)

/-- `_load_scraper` (lines 345-358). -/
def load_scraper_resolved (sd : StateDict V) (p : FaceParams V) :
    String × List (String × V) :=
  let category := sd.scraper_type.getD p.scraper_type
  (category, getParams (sd.scrapers_params.getD p.scrapers_params) category)

/-- `_load_restriction` (lines 360-379). -/
def load_restriction_resolved (sd : StateDict V) (p : FaceParams V) :
    Option (String × List (String × V)) :=
  let category : Option String :=
    match sd.restriction_type with
    | some v => v
    | none => p.restriction_type
  match category with
  | none => none
  | some c =>
    some (c,
      getParams (sd.restrictions_params.getD p.restrictions_params) c)

/-- `_load_saved_state` (lines 381-415): the category-and-parameters
content of the `State` it constructs. -/
def load_saved_state (postType : String) (sd : StateDict V)
    (p : FaceParams V) : FaceState V :=
  { processor_cat := load_processor_cat sd postType
    poster_cat := (load_poster_resolved sd p).1
    posters_params := sd.posters_params.getD p.posters_params
    scorer_cat := (load_scorer_resolved sd p).1
    scorers_params := sd.scorers_params.getD p.scorers_params
    score_modifier_cat := (load_score_modifier_resolved sd p).map (·.1)
    score_modifiers_params :=
      sd.score_modifiers_params.getD p.score_modifiers_params
    scraper_cat := (load_scraper_resolved sd p).1
    scrapers_params := sd.scrapers_params.getD p.scrapers_params
    restriction_cat := (load_restriction_resolved sd p).map (·.1)
    restrictions_params :=
      sd.restrictions_params.getD p.restrictions_params }

/-- `_build_*` resolution from configuration only (lines 149-199): the
poster slot. -/
def build_poster_resolved (p : FaceParams V) : String × List (String × V) :=
  (p.poster_type, getParams p.posters_params p.poster_type)

/-- `_build_scorer` resolution from configuration. -/
def build_scorer_resolved (p : FaceParams V) : String × List (String × V) :=
  (p.scorer_type, getParams p.scorers_params p.scorer_type)

/-- `_build_score_modifier` resolution from configuration (`None` means
no instance). -/
def build_score_modifier_resolved (p : FaceParams V) :
    Option (String × List (String × V)) :=
  p.score_modifier_type.map fun c =>
    (c, getParams p.score_modifiers_params c)

/-- `_build_scraper` resolution from configuration. -/
def build_scraper_resolved (p : FaceParams V) : String × List (String × V) :=
  (p.scraper_type, getParams p.scrapers_params p.scraper_type)

/-- `_build_restriction` resolution from configuration. -/
def build_restriction_resolved (p : FaceParams V) :
    Option (String × List (String × V)) :=
  p.restriction_type.map fun c => (c, getParams p.restrictions_params c)

/-- `_build_default_state` (lines 201-219): the category-and-parameters
content of the `State` built from configuration alone. -/
def build_default_state (postType : String) (p : FaceParams V) :
    FaceState V :=
  { processor_cat := postType
    poster_cat := p.poster_type
    posters_params := p.posters_params
    scorer_cat := p.scorer_type
    scorers_params := p.scorers_params
    score_modifier_cat := p.score_modifier_type
    score_modifiers_params := p.score_modifiers_params
    scraper_cat := p.scraper_type
    scrapers_params := p.scrapers_params
    restriction_cat := p.restriction_type
    restrictions_params := p.restrictions_params }

/-- **C5.** `save` then `load` round-trips: loading the manifest that
`_create_state_dict` wrote for a state reproduces that state's active
category and parameter dictionaries for all six slots — for *any*
configuration `p` supplied at load time (the manifest overrides the
configuration, including an explicitly-absent optional slot, whose `None`
is a present key in the manifest). -/
theorem c5_manifest_roundtrip (st : FaceState V) (p : FaceParams V)
    (postType : String) :
    load_saved_state postType (create_state_dict st) p = st := by
  cases st with
  | mk pc poc pop scc scp smc smp src srp rc rp =>
    cases smc <;> cases rc <;> rfl

/-- **C6.** Fallback law: for each slot, when the persisted manifest lacks
that slot's keys (its `*_type` and `*_params` entries), `load` resolves the
slot — category, keyword arguments, and for the optional slots the
"no instance" outcome — exactly as `buildDefault` would from the
configuration; and with no manifest at all, the whole loaded state equals
the default-built state. -/
theorem c6_fallback_law (p : FaceParams V) (postType : String)
    (sd : StateDict V) :
    (sd.processor_type = none → load_processor_cat sd postType = postType) ∧
      (sd.poster_type = none → sd.posters_params = none →
        load_poster_resolved sd p = build_poster_resolved p) ∧
      (sd.scorer_type = none → sd.scorers_params = none →
        load_scorer_resolved sd p = build_scorer_resolved p) ∧
      (sd.score_modifier_type = none → sd.score_modifiers_params = none →
        load_score_modifier_resolved sd p = build_score_modifier_resolved p) ∧
      (sd.scraper_type = none → sd.scrapers_params = none →
        load_scraper_resolved sd p = build_scraper_resolved p) ∧
      (sd.restriction_type = none → sd.restrictions_params = none →
        load_restriction_resolved sd p = build_restriction_resolved p) ∧
      load_saved_state postType (emptyStateDict V) p
        = build_default_state postType p := by
  refine ⟨?_, ?_, ?_, ?_, ?_, ?_, ?_⟩
  · intro h1
    simp [load_processor_cat, h1]
  · intro h1 h2
    simp [load_poster_resolved, build_poster_resolved, h1, h2]
  · intro h1 h2
    simp [load_scorer_resolved, build_scorer_resolved, h1, h2]
  · intro h1 h2
    simp only [load_score_modifier_resolved, build_score_modifier_resolved,
      h1, h2]
    cases p.score_modifier_type <;> rfl
  · intro h1 h2
    simp [load_scraper_resolved, build_scraper_resolved, h1, h2]
  · intro h1 h2
    simp only [load_restriction_resolved, build_restriction_resolved, h1, h2]
    cases p.restriction_type <;> rfl
  · cases hsm : p.score_modifier_type <;> cases hr : p.restriction_type <;>
      simp [load_saved_state, build_default_state, emptyStateDict,
        load_processor_cat, load_poster_resolved, load_scorer_resolved,
        load_score_modifier_resolved, load_scraper_resolved,
        load_restriction_resolved, hsm, hr]

/-- Witness for `c6_fallback_law`: a concrete configuration loaded against
the empty manifest resolves every slot as `buildDefault` does. -/
theorem c6_fallback_law_witness :
    load_poster_resolved (emptyStateDict Nat)
        { client_id := "i", client_secret := "s", refresh_token := "r",
          user_agent := "u", subreddit := "sub", ratelimit_seconds := 3600,
          poster_type := "basic", posters_params := [("basic", [("x", 1)])],
          scorer_type := "relativeScore", scorers_params := [],
          score_modifier_type := none, score_modifiers_params := [],
          scraper_type := "frontpage", scrapers_params := [],
          restriction_type := none, restrictions_params := [] }
      = build_poster_resolved
        { client_id := "i", client_secret := "s", refresh_token := "r",
          user_agent := "u", subreddit := "sub", ratelimit_seconds := 3600,
          poster_type := "basic", posters_params := [("basic", [("x", 1)])],
          scorer_type := "relativeScore", scorers_params := [],
          score_modifier_type := none, score_modifiers_params := [],
          scraper_type := "frontpage", scrapers_params := [],
          restriction_type := none, restrictions_params := [] } ∧
      load_saved_state "text" (emptyStateDict Nat)
        { client_id := "i", client_secret := "s", refresh_token := "r",
          user_agent := "u", subreddit := "sub", ratelimit_seconds := 3600,
          poster_type := "basic", posters_params := [("basic", [("x", 1)])],
          scorer_type := "relativeScore", scorers_params := [],
          score_modifier_type := none, score_modifiers_params := [],
          scraper_type := "frontpage", scrapers_params := [],
          restriction_type := none, restrictions_params := [] }
      = build_default_state "text"
        { client_id := "i", client_secret := "s", refresh_token := "r",
          user_agent := "u", subreddit := "sub", ratelimit_seconds := 3600,
          poster_type := "basic", posters_params := [("basic", [("x", 1)])],
          scorer_type := "relativeScore", scorers_params := [],
          score_modifier_type := none, score_modifiers_params := [],
          scraper_type := "frontpage", scrapers_params := [],
          restriction_type := none, restrictions_params := [] } := by
  refine ⟨(c6_fallback_law _ "text" _).2.1 rfl rfl, ?_⟩
  exact (c6_fallback_law _ "text" (emptyStateDict Nat)).2.2.2.2.2.2

/-! ## The `post` facade (face.py lines 473-487)

Under a read lock, `post` translates the external content with
`processor.to_internal`, evaluates the restriction strategy when one is
active (raising `ValueError("Post is not allowed to be posted.")` when the
check returns false), then delegates to `poster.post` and returns
`post.id, post.url` — the *native item's* fields, as delivered by the
poster.

Modelled from the spec (the poster strategy implementations are not part
of the provided sources): `Poster.post(collectionHandle, internalForm)`
returns a native item, and "native item exposes a native string id and
optional public URL" (spec section 6), so `post.id` is the native base-36
string and `post.url` the optional locator.

Python is dynamically typed, so the first component of the returned pair
is a tagged value: what the claim (and the function's own annotation
`Tuple[UUID, Optional[str]]`) expects is a `uuid`, what the code actually
forwards is the poster's native string id. -/

/-- A value returned in the identifier position of `post`'s result. -/
inductive PostedId where
  | uuid (n : Nat)
  | native (s : List Char)
deriving DecidableEq, Repr

/-- The native item a poster strategy returns (spec section 6). -/
structure NativeItem where
  id : List Char
  url : Option String
deriving DecidableEq, Repr

/-- The strategy slots `post` reads from the locked state. -/
structure PostOps (κ ι : Type) where
  to_internal : κ → Except PyErr ι
  restriction : Option (ι → Except PyErr Bool)
  poster_post : ι → Except PyErr NativeItem

variable {κ ι : Type}

/-- `poster.post` delegation and the final `return post.id, post.url`. -/
def run_poster (ops : PostOps κ ι) (data : ι) :
    Except PyErr (PostedId × Option String) × Bool :=
  match ops.poster_post data with
  | .error e => (.error e, true)
  | .ok item => (.ok (.native item.id, item.url), true)

/-- `RedditFace.post`: result of the call paired with whether the poster
strategy was invoked at all. -/
def face_post (ops : PostOps κ ι) (content : κ) :
    Except PyErr (PostedId × Option String) × Bool :=
  match ops.to_internal content with
  | .error e => (.error e, false)
  | .ok data =>
    match ops.restriction with
    | some check =>
      match check data with
      | .error e => (.error e, false)
      | .ok false =>
        (.error (.valueError "Post is not allowed to be posted."), false)
      | .ok true => run_poster ops data
    | none => run_poster ops data

/-- **C7.** When a restriction strategy is active and its check on the
translated internal form returns false, `submit` signals the rejection to
the caller (the `ValueError` below) and never invokes the poster strategy,
so no remote mutation occurs. -/
theorem c7_restriction_rejects (ops : PostOps κ ι) (content : κ) (data : ι)
    (check : ι → Except PyErr Bool)
    (h1 : ops.to_internal content = .ok data)
    (h2 : ops.restriction = some check)
    (h3 : check data = .ok false) :
    face_post ops content
      = (.error (.valueError "Post is not allowed to be posted."), false) := by
  simp only [face_post, h1, h2, h3]

/-- Witness for `c7_restriction_rejects` at a concrete content value and
an always-false restriction. -/
theorem c7_restriction_rejects_witness :
    face_post
        { to_internal := fun c : Nat => .ok (c + 1),
          restriction := some fun _ : Nat => .ok false,
          poster_post := fun _ => .ok ⟨['a'], none⟩ }
        41
      = (.error (.valueError "Post is not allowed to be posted."), false) :=
  c7_restriction_rejects _ 41 42 (fun _ => .ok false) rfl rfl rfl

/-- **C9, divergence witness.**  `post` returns `post.id` — the poster's
native base-36 string id — unconverted, not the 128-bit identifier
`UUID(int=int(post.id, 36))` that the claim (and the function's own
`Tuple[UUID, Optional[str]]` annotation) promises.  At a concrete accepted
submission whose native id is `"abc"`, the code returns the native string,
which is distinct from every `uuid` value, even though the id is perfectly
convertible (`int("abc", 36) = 13368`). -/
theorem c9_post_returns_native_id :
    face_post
        { to_internal := fun c : Nat => .ok c,
          restriction := none,
          poster_post := fun _ : Nat =>
            .ok ⟨['a', 'b', 'c'], some "https://example.com/p"⟩ }
        7
      = (.ok (.native ['a', 'b', 'c'], some "https://example.com/p"), true) ∧
      (∀ n : Nat, PostedId.native ['a', 'b', 'c'] ≠ .uuid n) ∧
      identifierOf ['a', 'b', 'c'] = some 13368 := by
  refine ⟨rfl, ?_, by decide⟩
  intro n h
  exact PostedId.noConfusion h

/-! ## `cleanup` (face.py lines 417-430 and 468-471)

`RedditFaceBase.cleanup` checks each of the six slot instances with
`isinstance(_, Configurable)` — the cleanup capability — and awaits its
`cleanup()`; `RedditFace.cleanup` then closes the client connection.  The
two optional slots may hold `None`, for which the `isinstance` check is
false and nothing happens.

Modelled from the spec (the slot strategies' own `cleanup()` bodies and
the client's `close()` are collaborators outside the provided sources):
per spec sections 4.4 and 9, a strategy's cleanup capability is a total
no-op-defaulted operation and closing is idempotent, so collaborator
calls are modelled as always succeeding; the order and the set of calls
come from the source. -/

/-- A slot instance, as far as `cleanup` inspects it: whether
`isinstance(instance, Configurable)` holds. -/
structure SlotInst where
  cleanable : Bool
deriving DecidableEq, Repr

/-- The slots `cleanup` walks, in source order; the optional slots may be
absent (`None`). -/
structure CleanupState where
  processor : SlotInst
  poster : SlotInst
  scorer : SlotInst
  score_modifier : Option SlotInst
  scraper : SlotInst
  restriction : Option SlotInst
deriving DecidableEq, Repr

/-- One observable action of `cleanup`. -/
inductive CleanAct where
  | cleanupSlot (name : String)
  | closeClient
deriving DecidableEq, Repr

/-- Whether the slot called `name` holds an instance exposing the cleanup
capability. -/
def slotCleanable (st : CleanupState) (name : String) : Bool :=
  if name = "processor" then st.processor.cleanable
  else if name = "poster" then st.poster.cleanable
  else if name = "scorer" then st.scorer.cleanable
  else if name = "score_modifier" then
    match st.score_modifier with
    | some m => m.cleanable
    | none => false
  else if name = "scraper" then st.scraper.cleanable
  else if name = "restriction" then
    match st.restriction with
    | some r => r.cleanable
    | none => false
  else false

/-- The action sequence of one `RedditFace.cleanup()` call:
`super().cleanup()` walks the six slots in source order, then the client
is closed. -/
def cleanup_actions (st : CleanupState) : List CleanAct :=
  (if st.processor.cleanable then [.cleanupSlot "processor"] else []) ++
    (if st.poster.cleanable then [.cleanupSlot "poster"] else []) ++
    (if st.scorer.cleanable then [.cleanupSlot "scorer"] else []) ++
    (match st.score_modifier with
     | some m => if m.cleanable then [.cleanupSlot "score_modifier"] else []
     | none => []) ++
    (if st.scraper.cleanable then [.cleanupSlot "scraper"] else []) ++
    (match st.restriction with
     | some r => if r.cleanable then [.cleanupSlot "restriction"] else []
     | none => []) ++
    [.closeClient]

/-- Running `cleanup()`: collaborator cleanups and the client close are
total (spec sections 4.4 and 9), so the call always succeeds with its
action trace. -/
def face_cleanup (st : CleanupState) : Except PyErr (List CleanAct) :=
  .ok (cleanup_actions st)

/-- Two consecutive `cleanup()` calls on the same face: the slot set is
unchanged by the first call, so the second repeats the same actions. -/
def face_cleanup_twice (st : CleanupState) :
    Except PyErr (List CleanAct) := do
  let a ← face_cleanup st
  let b ← face_cleanup st
  pure (a ++ b)

theorem mem_if_singleton {α : Type} [DecidableEq α] (x a : α) (b : Bool) :
    (x ∈ if b = true then [a] else ([] : List α)) ↔ (b = true ∧ x = a) := by
  cases b <;> simp

/-- **C10.** `cleanup` emits a cleanup action for exactly the slot
instances that expose the cleanup capability and closes the client
connection last (after all of them); and it is idempotent in the sense
that a second `cleanup()` on the same face also succeeds — no call in the
sequence fails. -/
theorem c10_cleanup (st : CleanupState) :
    face_cleanup st = .ok (cleanup_actions st) ∧
      (cleanup_actions st).getLast? = some .closeClient ∧
      (∀ name, CleanAct.cleanupSlot name ∈ cleanup_actions st ↔
        slotCleanable st name = true) ∧
      face_cleanup_twice st
        = .ok (cleanup_actions st ++ cleanup_actions st) := by
  refine ⟨rfl, ?_, ?_, rfl⟩
  · unfold cleanup_actions
    simp [List.getLast?_append]
  · intro name
    unfold cleanup_actions slotCleanable
    rcases st with ⟨⟨p⟩, ⟨po⟩, ⟨sc⟩, sm, ⟨scr⟩, r⟩
    simp only [List.mem_append, mem_if_singleton, List.mem_singleton]
    constructor
    · intro h
      rcases sm with _ | ⟨b⟩ <;> rcases r with _ | ⟨b'⟩ <;>
        rcases h with ((((((h | h) | h) | h) | h) | h) | h) <;>
          simp_all [mem_if_singleton]
    · intro h
      by_cases hp : name = "processor"
      · subst hp; simp_all
      by_cases hpo : name = "poster"
      · subst hpo; simp_all
      by_cases hsc : name = "scorer"
      · subst hsc; simp_all
      by_cases hsm : name = "score_modifier"
      · subst hsm
        rcases sm with _ | ⟨b⟩ <;> simp_all
      by_cases hscr : name = "scraper"
      · subst hscr; simp_all
      by_cases hr : name = "restriction"
      · subst hr
        rcases r with _ | ⟨b⟩ <;> simp_all
      simp_all
